import Mathlib

/-
Verification development for the attestation-verification and reward-execution
pipeline of this repository.

Shallow embedding notes:
- JS strings that carry data (URLs, hex digests) are modeled as lists of
  character codes (List Nat); error-message strings stay as Lean String
  literals matching the source texts.
- The Solidity contract RewardExecutor is modeled as a state record plus
  explicit step functions returning Except (a revert is an error value and
  leaves the state unchanged).
- Remote calls (the verification contract, Date.parse) are modeled as
  function-typed parameters, so every definition stays executable.
-/

abbrev Address := Nat

abbrev B32 := Nat

namespace RewardExecutor

/-- Contract storage of RewardExecutor.sol: the owner address and the
executedAttestations mapping (Solidity mappings default to false). -/
structure State where
  owner : Address
  executedAttestations : B32 → Bool

/-- The RewardExecuted event with its five fields. -/
structure RewardExecutedEvent where
  attestationTxHash : B32
  payloadHash : B32
  slotKey : B32
  participant : Address
  shiftedKw : Nat
deriving DecidableEq, Repr

/-- Constructor of RewardExecutor.sol: requires the owner to be nonzero. -/
def deploy (o : Address) : Option State :=
  if o = 0 then none else some ⟨o, fun _ => false⟩

/-- setOwner: onlyOwner, and rejects the zero address. -/
def setOwner (s : State) (sender newOwner : Address) : Except String State :=
  if sender = s.owner then
    if newOwner = 0 then Except.error "RewardExecutor: owner is zero"
    else Except.ok ⟨newOwner, s.executedAttestations⟩
  else Except.error "RewardExecutor: not owner"

/-- executeReward: onlyOwner, then the replay guard
(require not executedAttestations), then records the execution and emits
one RewardExecuted event. -/
def executeReward (s : State) (sender : Address) (attestationTxHash payloadHash slotKey : B32)
    (participant : Address) (shiftedKw : Nat) :
    Except String (State × RewardExecutedEvent) :=
  if sender = s.owner then
    if s.executedAttestations attestationTxHash then
      Except.error "RewardExecutor: already executed"
    else
      Except.ok
        (⟨s.owner, fun x => if x = attestationTxHash then true else s.executedAttestations x⟩,
         ⟨attestationTxHash, payloadHash, slotKey, participant, shiftedKw⟩)
  else Except.error "RewardExecutor: not owner"

/-- One external call to the contract: either executeReward or setOwner,
with the sender of the transaction. -/
inductive Call where
  | exec (sender : Address) (hh p k : B32) (participant : Address) (kw : Nat)
  | setOwn (sender newOwner : Address)

/-- Execute one call against the state. A revert leaves the state unchanged
and emits no event; a successful executeReward emits its single event. -/
def stepCall (s : State) : Call → State × List RewardExecutedEvent
  | Call.exec sender hh p k part kw =>
    match executeReward s sender hh p k part kw with
    | Except.ok (s2, ev) => (s2, [ev])
    | Except.error _ => (s, [])
  | Call.setOwn sender newOwner =>
    match setOwner s sender newOwner with
    | Except.ok s2 => (s2, [])
    | Except.error _ => (s, [])

/-- Execute a sequence of calls (the ledger serializes all execution
attempts, concurrent or retried, into some such sequence), collecting the
emitted events in order. -/
def runCalls (s : State) : List Call → State × List RewardExecutedEvent
  | [] => (s, [])
  | c :: cs =>
    let r1 := stepCall s c
    let r2 := runCalls r1.1 cs
    (r2.1, r1.2 ++ r2.2)

/-- Number of RewardExecuted events in a log that carry a given
attestation tx hash. -/
def countFor (hh : B32) (evs : List RewardExecutedEvent) : Nat :=
  (evs.filter (fun e => e.attestationTxHash == hh)).length

end RewardExecutor

namespace CheckAttestation

/-- DEFAULT_CONFIRMATIONS from check_attestation.js. -/
def DEFAULT_CONFIRMATIONS : Int := 12

/-- confirmations = latestBlock - receipt.blockNumber + 1. -/
def confirmations (latestBlock blockNumber : Int) : Int :=
  latestBlock - blockNumber + 1

/-- confirmed = confirmations >= confirmationsRequired. -/
def confirmed (conf required : Int) : Bool :=
  decide (required ≤ conf)

/-- Error kinds a contract call can raise; the source treats all of them
through one catch, while the claim under review distinguishes decode/ABI
mismatches from other failures such as network errors. -/
inductive RpcError where
  | decodeMismatch
  | network
  | other
deriving DecidableEq, Repr

/-- The verification-call fallback of checkAttestation: try verifyJsonApi;
on ANY thrown error try verifyWeb2Json; if the fallback also throws,
rethrow the original error. A logical false from the primary is returned
as the result and triggers no fallback. -/
def verifyWithFallback (primary fallback : Except RpcError Bool) :
    Except RpcError (Bool × String) :=
  match primary with
  | Except.ok b => Except.ok (b, "verifyJsonApi")
  | Except.error e =>
    match fallback with
    | Except.ok b => Except.ok (b, "verifyWeb2Json")
    | Except.error _ => Except.error e

/-- Modelled from the claim text (refinement comparison only): fall back to
verifyWeb2Json only on a decode/ABI mismatch of the primary attempt; any
other failure mode of the primary attempt is rethrown. -/
def verifyWithFallbackClaim (primary fallback : Except RpcError Bool) :
    Except RpcError (Bool × String) :=
  match primary with
  | Except.ok b => Except.ok (b, "verifyJsonApi")
  | Except.error RpcError.decodeMismatch =>
    match fallback with
    | Except.ok b => Except.ok (b, "verifyWeb2Json")
    | Except.error _ => Except.error RpcError.decodeMismatch
  | Except.error e => Except.error e

/-- ASCII lowercasing of a character-code string, as toLowerCase acts on the
hex digest strings compared by validatePayloadHash. -/
def lowerAscii (s : List Nat) : List Nat :=
  s.map (fun c => if 65 ≤ c ∧ c ≤ 90 then c + 32 else c)

/-- Output record of validatePayloadHash. -/
structure PayloadHashResult where
  computedMic : Option (List Nat)
  micMatchesExpected : Option Bool
  micMatchesSubmission : Option Bool
  payloadHashValid : Bool
deriving DecidableEq, Repr

/-- One digest comparison: performed (case-insensitively) only when the
other digest is present, otherwise indeterminate (none). -/
def micCompare (c : List Nat) : Option (List Nat) → Option Bool
  | none => none
  | some x => some (lowerAscii c == lowerAscii x)

/-- validatePayloadHash from check_attestation.js: recompute the digest of
the API response bytes when the file is present, compare it against the
optional expected digest and the optional submission-time digest, and set
payloadHashValid to false exactly when a performed comparison disagrees. -/
def validatePayloadHash (hashHex : List Nat → List Nat)
    (apiResponseBytes : Option (List Nat))
    (expectedMic submissionMic : Option (List Nat)) : PayloadHashResult :=
  match apiResponseBytes with
  | none => ⟨none, none, none, true⟩
  | some bs =>
    let c := hashHex bs
    let me := micCompare c expectedMic
    let ms := micCompare c submissionMic
    ⟨some c, me, ms, !(me == some false || ms == some false)⟩

/-- The parsed start/end range of a request URL. -/
structure RequestRange where
  startIso : List Nat
  endIso : List Nat
  startMs : Int
  endMs : Int
  valid : Bool
deriving DecidableEq, Repr

/-- Whether the second list begins with the first. -/
def listStartsWith : List Nat → List Nat → Bool
  | [], _ => true
  | _ :: _, [] => false
  | p :: ps, c :: cs => p == c && listStartsWith ps cs

/-- The suffix after the first occurrence of the marker
(url.indexOf(marker) followed by slice), none when the marker is absent. -/
def tailAfterMarker (marker : List Nat) : List Nat → Option (List Nat)
  | [] => none
  | c :: cs =>
    if listStartsWith marker (c :: cs) then some ((c :: cs).drop marker.length)
    else tailAfterMarker marker cs

/-- tail.split on the slash character (code 47), matching JS split. -/
def splitOnSlash : List Nat → List (List Nat)
  | [] => [[]]
  | c :: cs =>
    let rest := splitOnSlash cs
    if c == 47 then [] :: rest
    else
      match rest with
      | r :: rs => (c :: r) :: rs
      | [] => [[c]]

/-- Character codes of the marker string of parseRequestRange. -/
def intensityMarker : List Nat :=
  [47, 105, 110, 116, 101, 110, 115, 105, 116, 121, 47]

/-- parseRequestRange from check_attestation.js, with Date.parse abstracted
as a parameter (none models NaN). Returns none when the marker is missing,
fewer than two path chunks follow it, or a date does not parse; otherwise
the range with valid = (end strictly after start). -/
def parseRequestRange (dateParse : List Nat → Option Int) (url : List Nat) :
    Option RequestRange :=
  match tailAfterMarker intensityMarker url with
  | none => none
  | some tail =>
    match splitOnSlash tail with
    | c0 :: c1 :: _ =>
      match dateParse c0, dateParse c1 with
      | some sMs, some eMs => some ⟨c0, c1, sMs, eMs, decide (sMs < eMs)⟩
      | _, _ => none
    | _ => none

/-- timestampValid from checkAttestation: the lower-bound sub-check (waived
when lowestUsedTimestamp is zero) ANDed with the range sub-check (waived
when no range parsed). -/
def timestampValid (lowestUsedTimestamp blockTimestamp : Int)
    (range : Option RequestRange) : Bool :=
  (decide (lowestUsedTimestamp = 0) || decide (lowestUsedTimestamp ≤ blockTimestamp)) &&
  (match range with
   | none => true
   | some r => r.valid)

end CheckAttestation

namespace RewardFlow

open RewardExecutor CheckAttestation

/-- The attestation record consumed by runRewardFlow, as produced by
checkAttestation. -/
structure AttestationResult where
  verificationPassed : Bool
  confirmed : Bool
  confirmations : Int
  payloadHashValid : Bool
  timestampValid : Bool
deriving DecidableEq, Repr

/-- SIGNER_MODE of run_reward_flow.js. -/
inductive SignerMode where
  | privateKey
  | metamask
deriving DecidableEq, Repr

/-- Outcome of one runRewardFlow invocation. -/
inductive FlowResult where
  | errored (msg : String)
  | dryRunDone
  | metamaskPending
  | submitted
deriving DecidableEq, Repr

/-- Result of a flow run together with the resulting ledger (contract)
state and the number of state-changing calls sent to the ledger. -/
structure FlowOutput where
  result : FlowResult
  ledger : RewardExecutor.State
  submissionsAttempted : Nat

/-- Environment-style inputs of run_reward_flow.js that the modeled part
reads: the DRY_RUN variable, the signer mode, the signer address, the five
reward-call arguments, and CONFIRMATIONS. -/
structure RewardFlowEnv where
  dryRunVar : Option String
  signerMode : SignerMode
  sender : Address
  attestationTxHash : B32
  payloadHash : B32
  slotKey : B32
  participant : Address
  shiftedKw : Nat
  confirmationsRequired : Int

/-- dryRun = process.env.DRY_RUN !== "0": every configuration except an
explicit "0" yields a dry run, an unset variable included. -/
def dryRunFlag : Option String → Bool
  | none => true
  | some s => !(s == "0")

/-- The verification gate at the top of runRewardFlow: the three throw
sites guarding the four checks, in source order. The second message is
interpolated in the source; a fixed representative text is used here. -/
def verificationGate (att : AttestationResult) (confirmationsRequired : Int) :
    Option String :=
  if !att.verificationPassed then
    some "Attestation verification failed. Reward flow blocked."
  else if !att.confirmed || decide (att.confirmations < confirmationsRequired) then
    some "Attestation has insufficient confirmations."
  else if !att.payloadHashValid || !att.timestampValid then
    some "Attestation payload hash/timestamp validation failed."
  else none

/-- runRewardFlow from run_reward_flow.js, after checkAttestation returned:
the verification gate runs first; then a dry run returns without any
state-changing ledger call (calldata construction, fee data and gas
estimation are read-only); in MetaMask mode the script itself never
submits; in private-key mode the executeReward transaction is submitted
and the on-ledger contract decides it. -/
def runRewardFlow (env : RewardFlowEnv) (att : AttestationResult)
    (ledger : RewardExecutor.State) : FlowOutput :=
  match verificationGate att env.confirmationsRequired with
  | some msg => ⟨FlowResult.errored msg, ledger, 0⟩
  | none =>
    if dryRunFlag env.dryRunVar then ⟨FlowResult.dryRunDone, ledger, 0⟩
    else
      match env.signerMode with
      | SignerMode.metamask => ⟨FlowResult.metamaskPending, ledger, 0⟩
      | SignerMode.privateKey =>
        match executeReward ledger env.sender env.attestationTxHash env.payloadHash
            env.slotKey env.participant env.shiftedKw with
        | Except.ok (s2, _) => ⟨FlowResult.submitted, s2, 1⟩
        | Except.error msg => ⟨FlowResult.errored msg, ledger, 1⟩

end RewardFlow

open RewardExecutor CheckAttestation RewardFlow

section HelperLemmas

/-- Helper: the verification gate of runRewardFlow is silent exactly when
all four checks hold (with confirmed tied to the required depth). -/
theorem gate_none_iff (att : AttestationResult) (req : Int) :
    verificationGate att req = none ↔
      (att.verificationPassed = true ∧ att.confirmed = true ∧
       req ≤ att.confirmations ∧ att.payloadHashValid = true ∧
       att.timestampValid = true) := by
  obtain ⟨vp, cf, cn, ph, ts⟩ := att
  by_cases hcf : cn < req <;>
    cases vp <;> cases cf <;> cases ph <;> cases ts <;>
      (simp [verificationGate, hcf]; try omega)

end HelperLemmas

section RewardExecutorLemmas

/-- Helper: what a successful executeReward implies. -/
theorem executeReward_ok_spec (s : State) (sender : Address) (hh p k : B32)
    (part : Address) (kw : Nat) (s2 : State) (ev : RewardExecutedEvent)
    (hok : executeReward s sender hh p k part kw = Except.ok (s2, ev)) :
    s.executedAttestations hh = false ∧ sender = s.owner ∧
    s2 = ⟨s.owner, fun x => if x = hh then true else s.executedAttestations x⟩ ∧
    ev = ⟨hh, p, k, part, kw⟩ := by
  by_cases h1 : sender = s.owner
  · by_cases h2 : s.executedAttestations hh = true
    · simp [executeReward, h1, h2] at hok
    · simp only [executeReward, h1, if_true, Bool.not_eq_true] at hok
      rw [if_neg h2] at hok
      simp only [Except.ok.injEq, Prod.mk.injEq] at hok
      refine ⟨by simpa using h2, h1, hok.1.symm, hok.2.symm⟩
  · simp [executeReward, h1] at hok

/-- Helper: countFor distributes over list append. -/
theorem countFor_append (hh : B32) (a b : List RewardExecutedEvent) :
    countFor hh (a ++ b) = countFor hh a + countFor hh b := by
  simp [countFor, List.filter_append]

/-- Helper: over any call sequence, at most one RewardExecuted event for a
hash whose flag starts false, and none for a hash whose flag starts true. -/
theorem countFor_runCalls_le (hh : B32) (cs : List Call) : ∀ s : State,
    countFor hh (runCalls s cs).2 ≤ (if s.executedAttestations hh then 0 else 1) := by
  induction cs with
  | nil =>
    intro s
    simp only [runCalls, countFor, List.filter_nil, List.length_nil]
    split <;> omega
  | cons c cs ih =>
    intro s
    rw [show runCalls s (c :: cs) =
        ((runCalls (stepCall s c).1 cs).1,
         (stepCall s c).2 ++ (runCalls (stepCall s c).1 cs).2) from rfl]
    rw [countFor_append]
    cases c with
    | setOwn sender newOwner =>
      have h2 : (stepCall s (Call.setOwn sender newOwner)).2 = [] ∧
          (stepCall s (Call.setOwn sender newOwner)).1.executedAttestations
            = s.executedAttestations := by
        by_cases ho : sender = s.owner
        · by_cases hz : newOwner = 0 <;> simp [stepCall, setOwner, ho, hz]
        · simp [stepCall, setOwner, ho]
      rw [h2.1]
      have hrec := ih (stepCall s (Call.setOwn sender newOwner)).1
      rw [h2.2] at hrec
      simpa [countFor] using hrec
    | exec sender hh2 p k part kw =>
      cases hres : executeReward s sender hh2 p k part kw with
      | error msg =>
        have hstep : stepCall s (Call.exec sender hh2 p k part kw) = (s, []) := by
          simp [stepCall, hres]
        rw [hstep]
        simpa [countFor] using ih s
      | ok val =>
        obtain ⟨s2, ev⟩ := val
        obtain ⟨hflag, hown, hs2, hev⟩ :=
          executeReward_ok_spec s sender hh2 p k part kw s2 ev hres
        have hstep : stepCall s (Call.exec sender hh2 p k part kw) = (s2, [ev]) := by
          simp [stepCall, hres]
        rw [hstep,
            show ((s2, [ev]) : State × List RewardExecutedEvent).1 = s2 from rfl,
            show ((s2, [ev]) : State × List RewardExecutedEvent).2 = [ev] from rfl]
        by_cases hhh : hh2 = hh
        · subst hhh
          have hcount1 : countFor hh2 [ev] = 1 := by simp [countFor, hev]
          have hs2flag : s2.executedAttestations hh2 = true := by rw [hs2]; simp
          have hrest := ih s2
          rw [hs2flag] at hrest
          simp only [if_true] at hrest
          rw [hcount1, hflag]
          simp only [if_neg (by simp : ¬ (false = true))]
          omega
        · have hbeq : (hh2 == hh) = false := by simp [hhh]
          have hcount0 : countFor hh [ev] = 0 := by
            simp [countFor, hev, hbeq]
          have hs2flag : s2.executedAttestations hh = s.executedAttestations hh := by
            rw [hs2]
            show (if hh = hh2 then true else s.executedAttestations hh)
              = s.executedAttestations hh
            rw [if_neg (fun hcontra => hhh hcontra.symm)]
          have hrest := ih s2
          rw [hs2flag] at hrest
          rw [hcount0]
          omega

/-- Helper: every step of the contract preserves a nonzero owner. -/
theorem stepCall_owner_ne (s : State) (c : Call) (hs : s.owner ≠ 0) :
    (stepCall s c).1.owner ≠ 0 := by
  cases c with
  | exec sender hh p k part kw =>
    cases hres : executeReward s sender hh p k part kw with
    | error msg => simpa [stepCall, hres] using hs
    | ok val =>
      obtain ⟨s2, ev⟩ := val
      obtain ⟨_, _, hs2, _⟩ := executeReward_ok_spec s sender hh p k part kw s2 ev hres
      simp only [stepCall, hres]
      rw [hs2]
      exact hs
  | setOwn sender newOwner =>
    by_cases h1 : sender = s.owner
    · by_cases h2 : newOwner = 0
      · simpa [stepCall, setOwner, h1, h2] using hs
      · simp [stepCall, setOwner, h1, h2]
    · simpa [stepCall, setOwner, h1] using hs

/-- Helper: a nonzero owner is an invariant of every call sequence. -/
theorem runCalls_owner_ne (cs : List Call) : ∀ s : State, s.owner ≠ 0 →
    (runCalls s cs).1.owner ≠ 0 := by
  induction cs with
  | nil => intro s hs; simpa [runCalls] using hs
  | cons c cs ih =>
    intro s hs
    exact ih _ (stepCall_owner_ne s c hs)

end RewardExecutorLemmas

section CheckAttestationLemmas

/-- Helper: any range returned by parseRequestRange has its valid flag
equal to the strict comparison of its endpoints. -/
theorem parseRequestRange_valid (dateParse : List Nat → Option Int)
    (url : List Nat) (r : RequestRange)
    (hp : parseRequestRange dateParse url = some r) :
    r.valid = decide (r.startMs < r.endMs) := by
  unfold parseRequestRange at hp
  cases htail : tailAfterMarker intensityMarker url with
  | none => rw [htail] at hp; simp at hp
  | some tail =>
    rw [htail] at hp
    simp only [] at hp
    cases hsplit : splitOnSlash tail with
    | nil => rw [hsplit] at hp; simp at hp
    | cons c0 rest =>
      cases rest with
      | nil => rw [hsplit] at hp; simp at hp
      | cons c1 rest2 =>
        rw [hsplit] at hp
        simp only [] at hp
        cases hd0 : dateParse c0 with
        | none => rw [hd0] at hp; simp at hp
        | some sMs =>
          cases hd1 : dateParse c1 with
          | none => rw [hd0, hd1] at hp; simp at hp
          | some eMs =>
            rw [hd0, hd1] at hp
            simp only [Option.some.injEq] at hp
            rw [← hp]

end CheckAttestationLemmas

/-- Claim C7: confirmations are computed as currentHeight - blockHeight + 1
and the confirmation-depth check passes exactly when confirmations reach
the required count (default 12); in the scenario blockNumber = 100,
currentHeight = 105, requiredConfirmations = 12, the computed confirmations
equal 6 and the verdict is false. -/
theorem confirmations_formula :
    (∀ latestBlock blockNumber : Int,
        confirmations latestBlock blockNumber = latestBlock - blockNumber + 1) ∧
    (∀ conf required : Int, confirmed conf required = true ↔ required ≤ conf) ∧
    DEFAULT_CONFIRMATIONS = 12 ∧
    confirmations 105 100 = 6 ∧
    confirmed (confirmations 105 100) DEFAULT_CONFIRMATIONS = false := by
  refine ⟨fun a b => rfl, fun c r => by simp [confirmed], rfl, by decide, by decide⟩

/-- Witness for confirmations_formula at the stale-confirmations scenario. -/
theorem confirmations_formula_witness :
    confirmed 6 12 = true ↔ (12 : Int) ≤ 6 :=
  confirmations_formula.2.1 6 12

/-- Claim C4 counterexample: a network error of the primary verifyJsonApi
attempt is not rethrown; the code falls back to verifyWeb2Json and accepts
its result, while the claim demands the network error be rethrown. -/
theorem network_error_fallback_cex :
    verifyWithFallback (Except.error RpcError.network) (Except.ok true)
      = Except.ok (true, "verifyWeb2Json") ∧
    verifyWithFallbackClaim (Except.error RpcError.network) (Except.ok true)
      = Except.error RpcError.network ∧
    verifyWithFallback (Except.error RpcError.network) (Except.ok true)
      ≠ verifyWithFallbackClaim (Except.error RpcError.network) (Except.ok true) := by
  refine ⟨rfl, rfl, ?_⟩
  intro hcontra
  rw [show verifyWithFallback (Except.error RpcError.network) (Except.ok true)
        = Except.ok (true, "verifyWeb2Json") from rfl] at hcontra
  rw [show verifyWithFallbackClaim (Except.error RpcError.network) (Except.ok true)
        = Except.error RpcError.network from rfl] at hcontra
  exact Except.noConfusion hcontra

/-- Claim C4 (amended): verifyJsonApi is attempted first and a logical
result (true or false) from it is returned without fallback; ANY thrown
failure of the primary attempt, network errors included, triggers the
verifyWeb2Json fallback; only when the fallback also fails is the original
primary error rethrown. -/
theorem verify_fallback_on_any_error :
    (∀ (b : Bool) (fb : Except RpcError Bool),
        verifyWithFallback (Except.ok b) fb = Except.ok (b, "verifyJsonApi")) ∧
    (∀ (e : RpcError) (b : Bool),
        verifyWithFallback (Except.error e) (Except.ok b)
          = Except.ok (b, "verifyWeb2Json")) ∧
    (∀ e e2 : RpcError,
        verifyWithFallback (Except.error e) (Except.error e2) = Except.error e) :=
  ⟨fun _ _ => rfl, fun _ _ => rfl, fun _ _ => rfl⟩

/-- Claim C8: the payload-integrity verdict is false exactly when a
performed digest comparison disagrees (the recomputed digest differs,
case-insensitively, from a present expected digest or from a present
submission-time digest); when neither digest is present the check passes. -/
theorem payload_integrity_iff (hashHex : List Nat → List Nat)
    (apiBytes : Option (List Nat)) (expectedMic submissionMic : Option (List Nat)) :
    ((validatePayloadHash hashHex apiBytes expectedMic submissionMic).payloadHashValid = false ↔
      (∃ bs, apiBytes = some bs ∧
        ((∃ ex, expectedMic = some ex ∧ lowerAscii (hashHex bs) ≠ lowerAscii ex) ∨
         (∃ sm, submissionMic = some sm ∧ lowerAscii (hashHex bs) ≠ lowerAscii sm)))) ∧
    (expectedMic = none → submissionMic = none →
      (validatePayloadHash hashHex apiBytes expectedMic submissionMic).payloadHashValid = true) := by
  constructor
  · cases apiBytes with
    | none => simp [validatePayloadHash]
    | some bs =>
      cases expectedMic with
      | none =>
        cases submissionMic with
        | none => simp [validatePayloadHash, micCompare]
        | some sm =>
          by_cases hsm : lowerAscii (hashHex bs) = lowerAscii sm <;>
            simp [validatePayloadHash, micCompare, hsm]
      | some ex =>
        cases submissionMic with
        | none =>
          by_cases hex : lowerAscii (hashHex bs) = lowerAscii ex <;>
            simp [validatePayloadHash, micCompare, hex]
        | some sm =>
          by_cases hex : lowerAscii (hashHex bs) = lowerAscii ex <;>
            by_cases hsm : lowerAscii (hashHex bs) = lowerAscii sm <;>
              simp [validatePayloadHash, micCompare, hex, hsm]
  · intro he hm
    subst he
    subst hm
    cases apiBytes <;> simp [validatePayloadHash, micCompare]

/-- Witness for payload_integrity_iff: a present expected digest that
disagrees with the recomputed digest makes the verdict false. -/
theorem payload_integrity_iff_witness :
    (validatePayloadHash (fun _ => [100]) (some [1]) (some [97]) none).payloadHashValid
      = false :=
  (payload_integrity_iff (fun _ => [100]) (some [1]) (some [97]) none).1.mpr
    ⟨[1], rfl, Or.inl ⟨[97], rfl, by decide⟩⟩

/-- Claim C9: the time-window verdict is the conjunction of the lower-bound
sub-check (waived when lowestUsedTimestamp is zero) and the range sub-check;
a URL with no parseable range (missing marker, fewer than two chunks, or
unparseable dates gives parseRequestRange = none) never fails the check,
and a parsed range fails it exactly when the end is not strictly after the
start. -/
theorem time_window_verdict (dateParse : List Nat → Option Int) (url : List Nat)
    (lowestUsedTimestamp blockTimestamp : Int) :
    timestampValid lowestUsedTimestamp blockTimestamp (parseRequestRange dateParse url)
        = true ↔
      ((lowestUsedTimestamp = 0 ∨ lowestUsedTimestamp ≤ blockTimestamp) ∧
       ∀ r, parseRequestRange dateParse url = some r → r.startMs < r.endMs) := by
  cases hp : parseRequestRange dateParse url with
  | none => simp [timestampValid]
  | some r =>
    have hv := parseRequestRange_valid dateParse url r hp
    simp [timestampValid, hv]

/-- Witness for time_window_verdict: a URL without the range marker does
not fail the check when the lower bound is zero. -/
theorem time_window_verdict_witness :
    timestampValid 0 5 (parseRequestRange (fun _ => none) []) = true :=
  (time_window_verdict (fun _ => none) [] 0 5).mpr
    ⟨Or.inl rfl, fun _ hr => Option.noConfusion hr⟩

/-- Claim C1: whenever any of the four checks fails (verificationPassed,
confirmed together with the confirmation count, payloadHashValid,
timestampValid), runRewardFlow errors before any submission, performing
zero ledger writes and leaving the ledger unchanged; conversely a
submission is attempted only when all four checks hold. -/
theorem no_reward_without_verification :
    (∀ (env : RewardFlowEnv) (att : AttestationResult) (ledger : RewardExecutor.State),
        ¬(att.verificationPassed = true ∧ att.confirmed = true ∧
          env.confirmationsRequired ≤ att.confirmations ∧
          att.payloadHashValid = true ∧ att.timestampValid = true) →
        (∃ msg, (runRewardFlow env att ledger).result = FlowResult.errored msg) ∧
        (runRewardFlow env att ledger).submissionsAttempted = 0 ∧
        (runRewardFlow env att ledger).ledger = ledger) ∧
    (∀ (env : RewardFlowEnv) (att : AttestationResult) (ledger : RewardExecutor.State),
        (runRewardFlow env att ledger).submissionsAttempted ≠ 0 →
        att.verificationPassed = true ∧ att.confirmed = true ∧
        env.confirmationsRequired ≤ att.confirmations ∧
        att.payloadHashValid = true ∧ att.timestampValid = true) := by
  constructor
  · intro env att ledger hfail
    cases hgv : verificationGate att env.confirmationsRequired with
    | none =>
      exact absurd ((gate_none_iff att env.confirmationsRequired).mp hgv) hfail
    | some m =>
      refine ⟨⟨m, ?_⟩, ?_, ?_⟩ <;> simp [runRewardFlow, hgv]
  · intro env att ledger hsub
    cases hgv : verificationGate att env.confirmationsRequired with
    | none => exact (gate_none_iff att env.confirmationsRequired).mp hgv
    | some m => exact absurd (by simp [runRewardFlow, hgv]) hsub

/-- Witness for no_reward_without_verification: a run whose attestation
failed verification performs zero submissions. -/
theorem no_reward_without_verification_witness :
    (runRewardFlow ⟨none, SignerMode.privateKey, 1, 5, 6, 7, 8, 9, 12⟩
        ⟨false, true, 12, true, true⟩ ⟨1, fun _ => false⟩).submissionsAttempted = 0 :=
  (no_reward_without_verification.1 ⟨none, SignerMode.privateKey, 1, 5, 6, 7, 8, 9, 12⟩
      ⟨false, true, 12, true, true⟩ ⟨1, fun _ => false⟩ (by decide)).2.1

/-- Claim C6: dry-run is the default mode (every DRY_RUN configuration
except an explicit "0" yields a dry run, an unset variable included), and
a dry run performs no state-changing ledger call: the ledger state is
identical before and after and zero submissions are attempted. -/
theorem dry_run_default_and_pure :
    dryRunFlag none = true ∧
    (∀ s : String, s ≠ "0" → dryRunFlag (some s) = true) ∧
    dryRunFlag (some "0") = false ∧
    (∀ (env : RewardFlowEnv) (att : AttestationResult) (ledger : RewardExecutor.State),
        dryRunFlag env.dryRunVar = true →
        (runRewardFlow env att ledger).ledger = ledger ∧
        (runRewardFlow env att ledger).submissionsAttempted = 0) := by
  refine ⟨rfl, ?_, by decide, ?_⟩
  · intro s hs
    simp [dryRunFlag, hs]
  · intro env att ledger hdry
    cases hgv : verificationGate att env.confirmationsRequired with
    | some m => constructor <;> simp [runRewardFlow, hgv]
    | none => constructor <;> simp [runRewardFlow, hgv, hdry]

/-- Witness for dry_run_default_and_pure: with DRY_RUN unset, a passing
attestation yields zero submissions. -/
theorem dry_run_default_and_pure_witness :
    (runRewardFlow ⟨none, SignerMode.privateKey, 1, 5, 6, 7, 8, 9, 12⟩
        ⟨true, true, 12, true, true⟩ ⟨1, fun _ => false⟩).submissionsAttempted = 0 :=
  (dry_run_default_and_pure.2.2.2 ⟨none, SignerMode.privateKey, 1, 5, 6, 7, 8, 9, 12⟩
      ⟨true, true, 12, true, true⟩ ⟨1, fun _ => false⟩ rfl).2

/-- Claim C3 counterexample: with an API response present but no expected
and no submission digest, both digest comparisons are indeterminate (none),
yet payloadHashValid is coerced to true and the reward path proceeds all
the way to a submitted reward transaction. -/
theorem indeterminate_coerced_to_pass_cex :
    (validatePayloadHash (fun _ => [97]) (some [0]) none none).micMatchesExpected
      = none ∧
    (validatePayloadHash (fun _ => [97]) (some [0]) none none).micMatchesSubmission
      = none ∧
    (validatePayloadHash (fun _ => [97]) (some [0]) none none).payloadHashValid
      = true ∧
    (runRewardFlow ⟨some "0", SignerMode.privateKey, 1, 5, 6, 7, 8, 9, 12⟩
        ⟨true, true, 12,
         (validatePayloadHash (fun _ => [97]) (some [0]) none none).payloadHashValid,
         true⟩
        ⟨1, fun _ => false⟩).result = FlowResult.submitted := by
  refine ⟨rfl, rfl, rfl, ?_⟩
  rfl

/-- Claim C3 (amended): the four verdict fields the reward gate aggregates
are booleans and the gate lets the flow proceed exactly when all of them
are true together with the confirmation count; however, inside the
payload-integrity evaluator an indeterminate (null) digest comparison is
treated as a pass, so the verdict is false only when a performed
comparison is explicitly false. -/
theorem aggregate_gate_boolean_conjunction :
    (∀ (att : AttestationResult) (req : Int),
        verificationGate att req = none ↔
          (att.verificationPassed = true ∧ att.confirmed = true ∧
           req ≤ att.confirmations ∧ att.payloadHashValid = true ∧
           att.timestampValid = true)) ∧
    (∀ (hashHex : List Nat → List Nat) (apiBytes : Option (List Nat)),
        (validatePayloadHash hashHex apiBytes none none).payloadHashValid = true) ∧
    (∀ (hashHex : List Nat → List Nat) (apiBytes : Option (List Nat))
        (expectedMic submissionMic : Option (List Nat)),
        (validatePayloadHash hashHex apiBytes expectedMic submissionMic).payloadHashValid
            = false →
          (validatePayloadHash hashHex apiBytes expectedMic submissionMic).micMatchesExpected
              = some false ∨
          (validatePayloadHash hashHex apiBytes expectedMic submissionMic).micMatchesSubmission
              = some false) := by
  refine ⟨gate_none_iff, ?_, ?_⟩
  · intro hashHex apiBytes
    cases apiBytes <;> simp [validatePayloadHash, micCompare]
  · intro hashHex apiBytes expectedMic submissionMic hfalse
    cases apiBytes with
    | none => simp [validatePayloadHash] at hfalse
    | some bs =>
      simp only [validatePayloadHash, Bool.not_eq_false'] at hfalse
      rcases Bool.or_eq_true_iff.mp hfalse with h | h
      · exact Or.inl (by simpa [validatePayloadHash] using (beq_iff_eq).mp h)
      · exact Or.inr (by simpa [validatePayloadHash] using (beq_iff_eq).mp h)

/-- Witness for aggregate_gate_boolean_conjunction: absent digests yield a
passing integrity verdict. -/
theorem aggregate_gate_boolean_conjunction_witness :
    (validatePayloadHash (fun _ => [97]) (some [1]) none none).payloadHashValid = true :=
  aggregate_gate_boolean_conjunction.2.1 (fun _ => [97]) (some [1])

/-- Claim C5 counterexample: with a RewardRecord already on the ledger for
the attestation tx hash, the execute path of runRewardFlow still attempts
a submission (one state-changing call) and surfaces the on-ledger revert,
instead of performing no submission and reporting AlreadyExecuted. -/
theorem submits_despite_existing_record_cex :
    (runRewardFlow ⟨some "0", SignerMode.privateKey, 1, 5, 6, 7, 8, 9, 12⟩
        ⟨true, true, 12, true, true⟩ ⟨1, fun _ => true⟩).submissionsAttempted = 1 ∧
    (runRewardFlow ⟨some "0", SignerMode.privateKey, 1, 5, 6, 7, 8, 9, 12⟩
        ⟨true, true, 12, true, true⟩ ⟨1, fun _ => true⟩).result
      = FlowResult.errored "RewardExecutor: already executed" := by
  exact ⟨rfl, rfl⟩

/-- Claim C5 (amended): runRewardFlow performs no client-side query for an
existing RewardRecord; when one already exists for the attestation tx
hash, the execute path still sends the executeReward transaction, which
the on-ledger guard reverts, leaving the ledger unchanged. -/
theorem onledger_guard_only (env : RewardFlowEnv) (att : AttestationResult)
    (ledger : RewardExecutor.State)
    (hgate : verificationGate att env.confirmationsRequired = none)
    (hdry : dryRunFlag env.dryRunVar = false)
    (hmode : env.signerMode = SignerMode.privateKey)
    (hexec : ledger.executedAttestations env.attestationTxHash = true) :
    (runRewardFlow env att ledger).submissionsAttempted = 1 ∧
    (runRewardFlow env att ledger).ledger = ledger ∧
    ((runRewardFlow env att ledger).result
        = FlowResult.errored "RewardExecutor: not owner" ∨
     (runRewardFlow env att ledger).result
        = FlowResult.errored "RewardExecutor: already executed") := by
  by_cases hown : env.sender = ledger.owner
  · refine ⟨?_, ?_, Or.inr ?_⟩ <;>
      simp [runRewardFlow, hgate, hdry, hmode, executeReward, hown, hexec]
  · refine ⟨?_, ?_, Or.inl ?_⟩ <;>
      simp [runRewardFlow, hgate, hdry, hmode, executeReward, hown, hexec]

/-- Witness for onledger_guard_only at a concrete already-executed state. -/
theorem onledger_guard_only_witness :
    (runRewardFlow ⟨some "0", SignerMode.privateKey, 2, 11, 12, 13, 14, 15, 10⟩
        ⟨true, true, 20, true, true⟩ ⟨2, fun _ => true⟩).submissionsAttempted = 1 :=
  (onledger_guard_only ⟨some "0", SignerMode.privateKey, 2, 11, 12, 13, 14, 15, 10⟩
      ⟨true, true, 20, true, true⟩ ⟨2, fun _ => true⟩ (by decide) rfl rfl rfl).1

/-- Claim C2: per attestation tx hash at most one RewardExecuted record can
ever be created over any serialized sequence of execution attempts; a
successful executeReward sets the executedAttestations flag for its hash
(which must have been unset) and emits the event for that hash; and once
the flag is set, every further executeReward call with that hash reverts. -/
theorem reward_at_most_once :
    (∀ (s : RewardExecutor.State) (cs : List Call) (hh : B32),
        countFor hh (runCalls s cs).2 ≤ 1) ∧
    (∀ (s : RewardExecutor.State) (sender : Address) (hh p k : B32)
        (part : Address) (kw : Nat) (s2 : RewardExecutor.State)
        (ev : RewardExecutedEvent),
        executeReward s sender hh p k part kw = Except.ok (s2, ev) →
          s2.executedAttestations hh = true ∧ ev.attestationTxHash = hh ∧
          s.executedAttestations hh = false) ∧
    (∀ (s : RewardExecutor.State) (sender : Address) (hh p k : B32)
        (part : Address) (kw : Nat),
        s.executedAttestations hh = true →
          executeReward s sender hh p k part kw
              = Except.error "RewardExecutor: not owner" ∨
          executeReward s sender hh p k part kw
              = Except.error "RewardExecutor: already executed") := by
  refine ⟨?_, ?_, ?_⟩
  · intro s cs hh
    have hle := countFor_runCalls_le hh cs s
    cases hsf : s.executedAttestations hh <;> rw [hsf] at hle <;> simp at hle <;> omega
  · intro s sender hh p k part kw s2 ev hok
    obtain ⟨hflag, hown, hs2, hev⟩ := executeReward_ok_spec s sender hh p k part kw s2 ev hok
    refine ⟨?_, ?_, hflag⟩
    · rw [hs2]
      simp
    · rw [hev]
  · intro s sender hh p k part kw hflag
    by_cases h1 : sender = s.owner
    · exact Or.inr (by simp [executeReward, h1, hflag])
    · exact Or.inl (by simp [executeReward, h1])

/-- Witness for reward_at_most_once: on a state whose flag for hash 5 is
set, a repeated call by the owner reverts. -/
theorem reward_at_most_once_witness :
    executeReward ⟨1, fun _ => true⟩ 1 5 6 7 8 9
        = Except.error "RewardExecutor: not owner" ∨
    executeReward ⟨1, fun _ => true⟩ 1 5 6 7 8 9
        = Except.error "RewardExecutor: already executed" :=
  reward_at_most_once.2.2 ⟨1, fun _ => true⟩ 1 5 6 7 8 9 rfl

/-- Claim C10: executeReward is owner-restricted. From any deployed state
and along any call sequence the owner stays nonzero (the constructor and
setOwner both reject the zero address), and a call by any sender other
than the current owner reverts with the not-owner message, leaving the
state (owner and executedAttestations mapping) unchanged. -/
theorem executeReward_only_owner (o : Address) (s0 : RewardExecutor.State)
    (hd : deploy o = some s0) (cs : List Call) :
    (runCalls s0 cs).1.owner ≠ 0 ∧
    (∀ (sender : Address) (hh p k : B32) (part : Address) (kw : Nat),
        sender ≠ (runCalls s0 cs).1.owner →
        executeReward (runCalls s0 cs).1 sender hh p k part kw
            = Except.error "RewardExecutor: not owner" ∧
        stepCall (runCalls s0 cs).1 (Call.exec sender hh p k part kw)
            = ((runCalls s0 cs).1, [])) ∧
    (∀ (s : RewardExecutor.State) (sender newOwner : Address)
        (s2 : RewardExecutor.State),
        setOwner s sender newOwner = Except.ok s2 → s2.owner ≠ 0) ∧
    deploy 0 = none := by
  have hown0 : s0.owner ≠ 0 := by
    by_cases hz : o = 0
    · simp [deploy, hz] at hd
    · simp [deploy, hz] at hd
      rw [← hd]
      exact hz
  refine ⟨runCalls_owner_ne cs s0 hown0, ?_, ?_, by simp [deploy]⟩
  · intro sender hh p k part kw hne
    refine ⟨by simp [executeReward, hne], ?_⟩
    simp [stepCall, executeReward, hne]
  · intro s sender newOwner s2 hset
    by_cases h1 : sender = s.owner
    · by_cases h2 : newOwner = 0
      · simp [setOwner, h1, h2] at hset
      · simp [setOwner, h1, h2] at hset
        rw [← hset]
        exact h2
    · simp [setOwner, h1] at hset

/-- Witness for executeReward_only_owner: the freshly deployed state has a
nonzero owner. -/
theorem executeReward_only_owner_witness :
    (runCalls ⟨1, fun _ => false⟩ []).1.owner ≠ 0 :=
  (executeReward_only_owner 1 ⟨1, fun _ => false⟩ rfl []).1
